import Mathlib

/-!
# Verification of the spicetify-history record store

A shallow embedding of the persistence, import/export and view logic of the
spicetify-history extension (`src/db.ts`, `src/app.tsx`).  The IndexedDB
object store "history" (keyPath `uid`, unique index on `uri`) is modelled as a
`List Song`; each database operation becomes a pure function on that list,
with `Except` capturing rejected requests.  JSON values handled by the import
path are modelled by `JValue` (numbers as `Int`: all numeric fields of the
data model are integral).
-/

namespace SpicetifyHistory

/-- JSON-compatible values as produced by `JSON.parse`. -/
inductive JValue where
  | jNull
  | jBool (b : Bool)
  | jNum (n : Int)
  | jStr (s : String)
  | jArr (elems : List JValue)
  | jObj (fields : List (String × JValue))
deriving Repr

/-- `album` field shape of `Song` in `db.ts`. -/
structure AlbumRef where
  name : String
  uri : String
deriving DecidableEq, Repr

/-- element shape of the `artists` array of `Song` in `db.ts`. -/
structure ArtistRef where
  uri : String
  name : String
deriving DecidableEq, Repr

/-- element shape of the `images` array of `Song` in `db.ts`. -/
structure ImageRef where
  url : String
  label : String
deriving DecidableEq, Repr

/-- nested `duration` field shape of `Song` in `db.ts`. -/
structure Duration where
  milliseconds : Int
deriving DecidableEq, Repr

/-- The `Song` interface of `db.ts`: one row of the "history" object store.
`metadata` is `Record<string, any>` in the source, modelled as an association
list of JSON values. -/
structure Song where
  uid : String
  uri : String
  name : String
  duration : Duration
  album : AlbumRef
  artists : List ArtistRef
  metadata : List (String × JValue)
  images : List ImageRef
  listenDate : Int
deriving Repr

/-- JS property access `v.key` on a parsed JSON value: a field lookup on
objects, `undefined` (here `none`) on everything else.  (Property access on
`null` throws in JS; at every use site below the resulting exception and a
`false` validation result lead to the same import behaviour, so `none` is an
adequate model.) -/
def JValue.getField : JValue → String → Option JValue
  | .jObj fields, key => (fields.find? (fun kv => kv.1 == key)).map (·.2)
  | _, _ => none

/-- `typeof x === "string"` on an optional-chained access result. -/
def isStringField : Option JValue → Bool
  | some (.jStr _) => true
  | _ => false

/-- `typeof x === "number"` on an optional-chained access result. -/
def isNumberField : Option JValue → Bool
  | some (.jNum _) => true
  | _ => false

/-- `Array.isArray(x)`. -/
def isArrayField : Option JValue → Bool
  | some (.jArr _) => true
  | _ => false

/-- `typeof x === "object" && x !== null`: JS arrays also have
`typeof === "object"`, so they pass this check. -/
def isObjectField : Option JValue → Bool
  | some (.jObj _) => true
  | some (.jArr _) => true
  | _ => false

/-- The elements of an array-valued field (`[]` when not an array; every use
site already requires `Array.isArray` via short-circuit `&&`). -/
def arrayElems : Option JValue → List JValue
  | some (.jArr xs) => xs
  | _ => []

/-- `isValidSong` from `db.ts`: the dynamic shape check run on each element of
an imported JSON document, conjunct for conjunct in source order. -/
def isValidSong (song : JValue) : Bool :=
  isStringField (song.getField "uid") &&
  isStringField (song.getField "uri") &&
  isStringField (song.getField "name") &&
  isNumberField ((song.getField "duration").bind (·.getField "milliseconds")) &&
  isStringField ((song.getField "album").bind (·.getField "name")) &&
  isStringField ((song.getField "album").bind (·.getField "uri")) &&
  isArrayField (song.getField "artists") &&
  (arrayElems (song.getField "artists")).all (fun artist =>
    isStringField (artist.getField "name") && isStringField (artist.getField "uri")) &&
  isNumberField (song.getField "listenDate") &&
  isArrayField (song.getField "images") &&
  (arrayElems (song.getField "images")).all (fun image =>
    isStringField (image.getField "label") && isStringField (image.getField "url")) &&
  isObjectField (song.getField "metadata")

/-- Extract a string field. -/
def getStr : Option JValue → Option String
  | some (.jStr s) => some s
  | _ => none

/-- Extract a number field. -/
def getNum : Option JValue → Option Int
  | some (.jNum n) => some n
  | _ => none

/-- Extract the elements of an array field. -/
def getArr : Option JValue → Option (List JValue)
  | some (.jArr xs) => some xs
  | _ => none

/-- Object fields of the `metadata` value (arrays and primitives carry no
named fields the store ever looks at, hence `[]`). -/
def metadataFields : Option JValue → List (String × JValue)
  | some (.jObj fs) => fs
  | _ => []

/-- Read one element of the `artists` array. -/
def toArtist (v : JValue) : Option ArtistRef := do
  let name ← getStr (v.getField "name")
  let uri ← getStr (v.getField "uri")
  pure { uri := uri, name := name }

/-- Read one element of the `images` array. -/
def toImage (v : JValue) : Option ImageRef := do
  let label ← getStr (v.getField "label")
  let url ← getStr (v.getField "url")
  pure { url := url, label := label }

/-- The structured record a parsed JSON object denotes when stored: the view
of the object under the `Song` interface.  For any value accepted by
`isValidSong` this succeeds. -/
def toSong (v : JValue) : Option Song := do
  let uid ← getStr (v.getField "uid")
  let uri ← getStr (v.getField "uri")
  let name ← getStr (v.getField "name")
  let ms ← getNum ((v.getField "duration").bind (·.getField "milliseconds"))
  let albumName ← getStr ((v.getField "album").bind (·.getField "name"))
  let albumUri ← getStr ((v.getField "album").bind (·.getField "uri"))
  let artistsJ ← getArr (v.getField "artists")
  let artists ← artistsJ.mapM toArtist
  let listenDate ← getNum (v.getField "listenDate")
  let imagesJ ← getArr (v.getField "images")
  let images ← imagesJ.mapM toImage
  pure { uid := uid, uri := uri, name := name, duration := ⟨ms⟩,
         album := ⟨albumName, albumUri⟩, artists := artists,
         metadata := metadataFields (v.getField "metadata"),
         images := images, listenDate := listenDate }

/-- `saveSongToDB` from `db.ts`.  The transaction looks the incoming record up
through the unique `uri` index.  If a row is found, only its `listenDate` is
replaced and the row is `put` back under its own `uid`.  Otherwise the record
is `add`ed, which IndexedDB rejects with a `ConstraintError` when a row with
the same primary key `uid` already exists (the keyPath of the store). -/
def saveSongToDB (store : List Song) (song : Song) : Except String (List Song) :=
  match store.find? (fun s => s.uri == song.uri) with
  | some foundSong =>
      let updated : Song := { foundSong with listenDate := song.listenDate }
      .ok (store.map (fun s => if s.uid == foundSong.uid then updated else s))
  | none =>
      if store.any (fun s => s.uid == song.uid) then
        .error "ConstraintError"
      else
        .ok (store ++ [song])

/-- `deleteSongFromDB` from `db.ts`: `objectStore.delete(uid)`.  An IndexedDB
`delete` request succeeds whether or not a row with the key exists, so the
error path of the source never fires for a missing key. -/
def deleteSongFromDB (store : List Song) (uid : String) : Except String (List Song) :=
  .ok (store.filter (fun s => !(s.uid == uid)))

/-- The state after one upsert request: the new store on success, the old
store when the request was rejected. -/
def applyUpsert (store : List Song) (song : Song) : List Song :=
  match saveSongToDB store song with
  | .ok newStore => newStore
  | .error _ => store

/-- A sequential run of upsert operations. -/
def runUpserts (store : List Song) : List Song → List Song
  | [] => store
  | song :: rest => runUpserts (applyUpsert store song) rest

/-- The two key invariants of the "history" store: the primary key `uid`
(store keyPath) and the secondary key `uri` (unique index) are both
duplicate-free. -/
def uniqueKeys (store : List Song) : Prop :=
  (store.map Song.uid).Nodup ∧ (store.map Song.uri).Nodup

/-- The observable outcome of `exportHistoryAsFile`: the notification string
finally shown and the serialized document handed to the download link, when
one is produced. -/
structure ExportResult where
  message : String
  file : Option (List Song)
deriving Repr

/-- `exportHistoryAsFile` from `db.ts`.  `fetch` is the result of
`getHistoryFromDB` (which rejects when the read transaction fails).  An empty
history produces no file and the distinct "No history to export" message; a
non-empty one is sorted ascending by `listenDate`
(`history.sort((a, b) => a.listenDate - b.listenDate)`, a stable sort) and
downloaded. -/
def exportHistoryAsFile (fetch : Except String (List Song)) : ExportResult :=
  match fetch with
  | .error _ => { message := "Failed to export history", file := none }
  | .ok history =>
      if history.length == 0 then
        { message := "No history to export", file := none }
      else
        { message := "History exported",
          file := some (history.mergeSort (fun a b => a.listenDate - b.listenDate ≤ 0)) }

/-- Walks the imported array exactly like the `for` loop of
`importHistoryAsFile`: records are converted and queued (`objectStore.add`)
until the first element failing `isValidSong`, where the loop throws.  Returns
the queued rows and whether the throw happened.  (`toSong` succeeds on every
value accepted by `isValidSong`; the `none` fallback is unreachable there.) -/
def importQueue : List JValue → List Song × Bool
  | [] => ([], false)
  | v :: rest =>
      if isValidSong v then
        match toSong v with
        | some s => (s :: (importQueue rest).1, (importQueue rest).2)
        | none => ([], true)
      else
        ([], true)

/-- Processing of the queued `add` requests at commit time: each one is
rejected with a `ConstraintError` when a row with the same `uid` (store
keyPath) or the same `uri` (unique index) is already present; a rejected
request, unhandled by the source, aborts the whole transaction. -/
def addAll (store : List Song) : List Song → Except String (List Song)
  | [] => .ok store
  | s :: rest =>
      if store.any (fun t => t.uid == s.uid || t.uri == s.uri) then
        .error "ConstraintError"
      else
        addAll (store ++ [s]) rest

/-- The observable outcome of `importHistoryAsFile`: which final notification
the user sees. -/
inductive ImportOutcome where
  | imported
  | failed
deriving DecidableEq, Repr

/-- `importHistoryAsFile` from `db.ts` on an already-parsed JSON array.  All
`add` requests issued before the validation throw stay queued on the open
transaction, which still commits them afterwards ("History imported" is never
shown in that case, but the rows land); if instead any queued `add` hits a
key conflict, the unhandled request error aborts the transaction and nothing
is written. -/
def importHistoryAsFile (store : List Song) (doc : List JValue) :
    ImportOutcome × List Song :=
  match addAll store (importQueue doc).1 with
  | .error _ => (.failed, store)
  | .ok newStore =>
      if (importQueue doc).2 then (.failed, newStore) else (.imported, newStore)

/-- The sort configuration state of `app.tsx`. -/
structure SortConfig where
  key : String
  ascending : Bool
deriving DecidableEq, Repr

/-- `a.localeCompare(b)` of the source, modelled as code-point comparison
(the locale-specific collation order is outside the model; every property
proved below is independent of the string order used). -/
def localeCompare (a b : String) : Int :=
  match compare a b with
  | .lt => -1
  | .eq => 0
  | .gt => 1

/-- The comparator closed over by `sortSongs` in `app.tsx`: keyed on the
`sortConfig.key` string, `0` for unknown keys.  (`a.album?.name || ""` of the
source: `album` is a required field of `Song`, and the `|| ""` fallback is the
identity on the string already there.) -/
def songComparator (key : String) (a b : Song) : Int :=
  if key == "name" then localeCompare a.name b.name
  else if key == "album" then localeCompare a.album.name b.album.name
  else if key == "date" then a.listenDate - b.listenDate
  else if key == "duration" then a.duration.milliseconds - b.duration.milliseconds
  else 0

/-- `sortSongs` from `app.tsx`: a stable ascending sort with the comparator
(JS `Array.prototype.sort` is stable; an element precedes another whenever the
comparator is `≤ 0`), then a whole-list `reverse` when descending. -/
def sortSongs (songs : List Song) (sortConfig : SortConfig) : List Song :=
  let sortedSongs :=
    songs.mergeSort (fun a b => songComparator sortConfig.key a b ≤ 0)
  if !sortConfig.ascending then sortedSongs.reverse else sortedSongs

/-- JS `hay.includes(needle)`: substring containment. -/
def jsIncludes (hay needle : String) : Bool :=
  decide (needle.toList <:+: hay.toList)

/-- JS `String.prototype.toLowerCase`, modelled as per-character simple
lowercasing. -/
def jsToLower (s : String) : String :=
  ⟨s.data.map Char.toLower⟩

/-- The filter applied by `handleSearchChange` in the search debounce of
`app.tsx`: the query is lowercased once, then matched against the lowercased
title, album name, and each artist name. -/
def handleSearchChange (songs : List Song) (rawQuery : String) : List Song :=
  let query := jsToLower rawQuery
  songs.filter (fun song =>
    jsIncludes (jsToLower song.name) query ||
    jsIncludes (jsToLower song.album.name) query ||
    song.artists.any (fun artist => jsIncludes (jsToLower artist.name) query))

/-- The claim-side matching relation: `query` is a case-insensitive substring
of `text`. -/
def ciSubstring (query text : String) : Prop :=
  (jsToLower query).toList <:+: (jsToLower text).toList

/-! ### Concrete fixtures used to instantiate the theorems -/

/-- Fixture: a stored row. -/
def songA : Song :=
  { uid := "uidA", uri := "spotify:track:A", name := "Bohemian Rhapsody",
    duration := ⟨300000⟩, album := ⟨"A Night at the Opera", "spotify:album:A"⟩,
    artists := [⟨"spotify:artist:A", "Queen"⟩], metadata := [],
    images := [⟨"http://img/A", "cover"⟩], listenDate := 100 }

/-- Fixture: a second stored row, all keys distinct from `songA`. -/
def songB : Song :=
  { uid := "uidB", uri := "spotify:track:B", name := "Yesterday",
    duration := ⟨60000⟩, album := ⟨"Help!", "spotify:album:B"⟩,
    artists := [⟨"spotify:artist:B", "The Beatles"⟩], metadata := [],
    images := [], listenDate := 300 }

/-- Fixture: a third row, all keys distinct from `songA` and `songB`. -/
def songC : Song :=
  { uid := "uidC", uri := "spotify:track:C", name := "Hey Jude",
    duration := ⟨125000⟩, album := ⟨"Hey Jude", "spotify:album:C"⟩,
    artists := [⟨"spotify:artist:B", "The Beatles"⟩], metadata := [],
    images := [], listenDate := 200 }

/-- Fixture: a replay of `songB` (same `uri`), later `listenDate`. -/
def songB2 : Song :=
  { uid := "uidB", uri := "spotify:track:B", name := "Yesterday",
    duration := ⟨60000⟩, album := ⟨"Help!", "spotify:album:B"⟩,
    artists := [⟨"spotify:artist:B", "The Beatles"⟩], metadata := [],
    images := [], listenDate := 999 }

/-- Fixture: an incoming record sharing `songA`'s `uid` while carrying a
`uri` not present in the store. -/
def songClash : Song :=
  { uid := "uidA", uri := "spotify:track:other", name := "Some Other Track",
    duration := ⟨90000⟩, album := ⟨"Other", "spotify:album:O"⟩,
    artists := [], metadata := [], images := [], listenDate := 400 }

/-- Fixture: a well-formed import document entry (denotes `songB`). -/
def jSongB : JValue := .jObj
  [("uid", .jStr "uidB"), ("uri", .jStr "spotify:track:B"),
   ("name", .jStr "Yesterday"),
   ("duration", .jObj [("milliseconds", .jNum 60000)]),
   ("album", .jObj [("name", .jStr "Help!"), ("uri", .jStr "spotify:album:B")]),
   ("artists", .jArr [.jObj [("uri", .jStr "spotify:artist:B"), ("name", .jStr "The Beatles")]]),
   ("metadata", .jObj []),
   ("images", .jArr []),
   ("listenDate", .jNum 300)]

/-- Fixture: an import document entry with no `duration` field at all (the
rest is well-formed). -/
def jBadNoDuration : JValue := .jObj
  [("uid", .jStr "uidD"), ("uri", .jStr "spotify:track:D"),
   ("name", .jStr "Broken Entry"),
   ("album", .jObj [("name", .jStr "X"), ("uri", .jStr "spotify:album:D")]),
   ("artists", .jArr []),
   ("metadata", .jObj []),
   ("images", .jArr []),
   ("listenDate", .jNum 500)]

/-- Fixture: a well-formed import entry whose `uri` is `songA`'s while its
`uid` is fresh. -/
def jConflict : JValue := .jObj
  [("uid", .jStr "uidE"), ("uri", .jStr "spotify:track:A"),
   ("name", .jStr "Bohemian Rhapsody"),
   ("duration", .jObj [("milliseconds", .jNum 300000)]),
   ("album", .jObj [("name", .jStr "A Night at the Opera"), ("uri", .jStr "spotify:album:A")]),
   ("artists", .jArr []),
   ("metadata", .jObj []),
   ("images", .jArr []),
   ("listenDate", .jNum 600)]

/-- Fixture: a well-formed import entry with keys fresh for every store used
below (denotes `songF`). -/
def jFresh : JValue := .jObj
  [("uid", .jStr "uidF"), ("uri", .jStr "spotify:track:F"),
   ("name", .jStr "Fresh Track"),
   ("duration", .jObj [("milliseconds", .jNum 180000)]),
   ("album", .jObj [("name", .jStr "F"), ("uri", .jStr "spotify:album:F")]),
   ("artists", .jArr []),
   ("metadata", .jObj []),
   ("images", .jArr []),
   ("listenDate", .jNum 700)]

/-- The row denoted by `jFresh`. -/
def songF : Song :=
  { uid := "uidF", uri := "spotify:track:F", name := "Fresh Track",
    duration := ⟨180000⟩, album := ⟨"F", "spotify:album:F"⟩,
    artists := [], metadata := [], images := [], listenDate := 700 }

/-- Fixture: a well-formed import entry whose `duration.milliseconds` is the
negative number `-5`. -/
def jNegDuration : JValue := .jObj
  [("uid", .jStr "uidN"), ("uri", .jStr "spotify:track:N"),
   ("name", .jStr "Negative Duration"),
   ("duration", .jObj [("milliseconds", .jNum (-5))]),
   ("album", .jObj [("name", .jStr "N"), ("uri", .jStr "spotify:album:N")]),
   ("artists", .jArr []),
   ("metadata", .jObj []),
   ("images", .jArr []),
   ("listenDate", .jNum 800)]

/-- The row denoted by `jNegDuration`. -/
def songN : Song :=
  { uid := "uidN", uri := "spotify:track:N", name := "Negative Duration",
    duration := ⟨-5⟩, album := ⟨"N", "spotify:album:N"⟩,
    artists := [], metadata := [], images := [], listenDate := 800 }

/-! ### Helper lemmas about the store operations -/

theorem saveSongToDB_eq_found {store : List Song} {song found : Song}
    (hf : store.find? (fun s => s.uri == song.uri) = some found) :
    saveSongToDB store song =
      .ok (store.map (fun s =>
        if s.uid == found.uid then { found with listenDate := song.listenDate } else s)) := by
  unfold saveSongToDB
  rw [hf]

theorem saveSongToDB_eq_add {store : List Song} {song : Song}
    (hf : store.find? (fun s => s.uri == song.uri) = none)
    (ha : store.any (fun s => s.uid == song.uid) = false) :
    saveSongToDB store song = .ok (store ++ [song]) := by
  unfold saveSongToDB
  rw [hf]
  simp [ha]

theorem saveSongToDB_eq_err {store : List Song} {song : Song}
    (hf : store.find? (fun s => s.uri == song.uri) = none)
    (ha : store.any (fun s => s.uid == song.uid) = true) :
    saveSongToDB store song = .error "ConstraintError" := by
  unfold saveSongToDB
  rw [hf]
  simp [ha]

theorem applyUpsert_of_ok {store : List Song} {song : Song} {st : List Song}
    (h : saveSongToDB store song = .ok st) : applyUpsert store song = st := by
  unfold applyUpsert
  rw [h]

theorem applyUpsert_of_err {store : List Song} {song : Song} {e : String}
    (h : saveSongToDB store song = .error e) : applyUpsert store song = store := by
  unfold applyUpsert
  rw [h]

/-- One upsert request preserves uniqueness of both keys. -/
theorem applyUpsert_uniqueKeys (store : List Song) (song : Song)
    (h : uniqueKeys store) : uniqueKeys (applyUpsert store song) := by
  obtain ⟨hud, hur⟩ := h
  cases hf : store.find? (fun s => s.uri == song.uri) with
  | some found =>
      rw [applyUpsert_of_ok (saveSongToDB_eq_found hf)]
      have hmem : found ∈ store := List.mem_of_find?_eq_some hf
      have huid : (store.map (fun s =>
          if s.uid == found.uid then { found with listenDate := song.listenDate } else s)).map
            Song.uid = store.map Song.uid := by
        rw [List.map_map]
        apply List.map_congr_left
        intro a ha
        by_cases hc : (a.uid == found.uid) = true
        · simp only [Function.comp_apply, hc, if_true]
          exact (eq_of_beq hc).symm
        · have hne : a.uid ≠ found.uid := by simpa using hc
          simp [hne]
      have huri : (store.map (fun s =>
          if s.uid == found.uid then { found with listenDate := song.listenDate } else s)).map
            Song.uri = store.map Song.uri := by
        rw [List.map_map]
        apply List.map_congr_left
        intro a ha
        by_cases hc : (a.uid == found.uid) = true
        · have haf : a = found := List.inj_on_of_nodup_map hud ha hmem (eq_of_beq hc)
          subst haf
          simp
        · have hne : a.uid ≠ found.uid := by simpa using hc
          simp [hne]
      exact ⟨huid ▸ hud, huri ▸ hur⟩
  | none =>
      cases ha : store.any (fun s => s.uid == song.uid) with
      | true =>
          rw [applyUpsert_of_err (saveSongToDB_eq_err hf ha)]
          exact ⟨hud, hur⟩
      | false =>
          rw [applyUpsert_of_ok (saveSongToDB_eq_add hf ha)]
          constructor
          · rw [List.map_append, List.nodup_append]
            refine ⟨hud, List.nodup_singleton _, ?_⟩
            simp only [List.map_cons, List.map_nil, List.disjoint_singleton]
            intro hmem
            obtain ⟨s, hs, hsu⟩ := List.mem_map.mp hmem
            exact absurd (beq_iff_eq.mpr hsu) (by simpa using List.any_eq_false.mp ha s hs)
          · rw [List.map_append, List.nodup_append]
            refine ⟨hur, List.nodup_singleton _, ?_⟩
            simp only [List.map_cons, List.map_nil, List.disjoint_singleton]
            intro hmem
            obtain ⟨s, hs, hsu⟩ := List.mem_map.mp hmem
            exact absurd (beq_iff_eq.mpr hsu) (by simpa using List.find?_eq_none.mp hf s hs)

theorem runUpserts_uniqueKeys (ops : List Song) :
    ∀ store, uniqueKeys store → uniqueKeys (runUpserts store ops) := by
  induction ops with
  | nil => intro store h; exact h
  | cons a rest ih =>
      intro store h
      exact ih _ (applyUpsert_uniqueKeys store a h)

/-! ### Claim theorems -/

/-- C6: exporting the empty store produces no output file and reports the
distinct "No history to export" condition, distinguishable both from a
successful export and from a storage failure. -/
theorem C6_empty_export_distinguishable (msg : String) (store : List Song) :
    (exportHistoryAsFile (.ok [])).file = none ∧
    (exportHistoryAsFile (.ok [])).message = "No history to export" ∧
    exportHistoryAsFile (.ok []) ≠ exportHistoryAsFile (.error msg) ∧
    (store ≠ [] → exportHistoryAsFile (.ok []) ≠ exportHistoryAsFile (.ok store)) := by
  refine ⟨rfl, rfl, ?_, ?_⟩
  · intro h
    have hmsg := congrArg ExportResult.message h
    simp [exportHistoryAsFile] at hmsg
  · intro hne h
    have hlen : (store.length == 0) = false := by
      simp [List.length_eq_zero, hne]
    have hmsg := congrArg ExportResult.message h
    simp [exportHistoryAsFile, hlen] at hmsg

/-- Witness for C6 at a concrete failure message and concrete store. -/
theorem C6_witness :
    (exportHistoryAsFile (.ok [])).file = none ∧
    (exportHistoryAsFile (.ok [])).message = "No history to export" ∧
    exportHistoryAsFile (.ok []) ≠ exportHistoryAsFile (.error "boom") ∧
    exportHistoryAsFile (.ok []) ≠ exportHistoryAsFile (.ok [songA]) := by
  have h := C6_empty_export_distinguishable "boom" [songA]
  exact ⟨h.1, h.2.1, h.2.2.1, h.2.2.2 (List.cons_ne_nil _ _)⟩

/-- C7: deletion is idempotent: a delete request always succeeds, a second
delete of the same `uid` succeeds and leaves the store unchanged, and deleting
an absent key is a successful no-op. -/
theorem C7_delete_idempotent (store : List Song) (uid : String) :
    (∃ store₁, deleteSongFromDB store uid = .ok store₁ ∧
        deleteSongFromDB store₁ uid = .ok store₁) ∧
    ((∀ s ∈ store, s.uid ≠ uid) → deleteSongFromDB store uid = .ok store) := by
  constructor
  · refine ⟨store.filter (fun s => !(s.uid == uid)), rfl, ?_⟩
    simp [deleteSongFromDB, List.filter_filter]
  · intro h
    unfold deleteSongFromDB
    congr 1
    rw [List.filter_eq_self]
    intro a ha
    simp [h a ha]

/-- Witness for C7: deleting a key that is not in the store. -/
theorem C7_witness :
    (∃ store₁, deleteSongFromDB [songA] "missing" = .ok store₁ ∧
        deleteSongFromDB store₁ "missing" = .ok store₁) ∧
    deleteSongFromDB [songA] "missing" = .ok [songA] := by
  refine ⟨(C7_delete_idempotent [songA] "missing").1, ?_⟩
  apply (C7_delete_idempotent [songA] "missing").2
  intro s hs
  have hs' : s = songA := by simpa using hs
  subst hs'
  decide

/-- C8: for each of the four sort keys, sorting descending returns exactly
the reverse of the ascending result. -/
theorem C8_descending_reverses_ascending (songs : List Song) (key : String)
    (_hkey : key ∈ ["name", "album", "date", "duration"]) :
    sortSongs songs ⟨key, false⟩ = (sortSongs songs ⟨key, true⟩).reverse :=
  rfl

/-- Witness for C8 at the spec's duration fixture (durations 300000, 60000,
125000). -/
theorem C8_witness :
    sortSongs [songA, songB, songC] ⟨"duration", false⟩ =
      (sortSongs [songA, songB, songC] ⟨"duration", true⟩).reverse :=
  C8_descending_reverses_ascending [songA, songB, songC] "duration" (by simp)

/-- C10: the import validator accepts a record whose `duration.milliseconds`
is the negative number `-5`, and the import path commits it to the store. -/
theorem C10_validator_accepts_negative_duration :
    isValidSong jNegDuration = true ∧
    toSong jNegDuration = some songN ∧
    songN.duration.milliseconds < 0 ∧
    importHistoryAsFile [] [jNegDuration] = (.imported, [songN]) :=
  ⟨rfl, rfl, by decide, rfl⟩

/-- C5: exporting a non-empty store produces a file holding every stored
record (a permutation of the store) sorted ascending by `listenDate`. -/
theorem C5_export_sorted (store : List Song) (h : store ≠ []) :
    ∃ out,
      exportHistoryAsFile (.ok store) = { message := "History exported", file := some out } ∧
      out.Perm store ∧
      List.Pairwise (fun a b => a.listenDate ≤ b.listenDate) out := by
  have hlen : (store.length == 0) = false := by
    simp [List.length_eq_zero, h]
  refine ⟨store.mergeSort (fun a b => a.listenDate - b.listenDate ≤ 0), ?_, ?_, ?_⟩
  · simp [exportHistoryAsFile, hlen]
  · exact List.mergeSort_perm store _
  · have htrans : ∀ a b c : Song,
        decide (a.listenDate - b.listenDate ≤ 0) = true →
        decide (b.listenDate - c.listenDate ≤ 0) = true →
        decide (a.listenDate - c.listenDate ≤ 0) = true := by
      intro a b c hab hbc
      simp only [decide_eq_true_eq] at *
      omega
    have htotal : ∀ a b : Song,
        (decide (a.listenDate - b.listenDate ≤ 0) ||
          decide (b.listenDate - a.listenDate ≤ 0)) = true := by
      intro a b
      simp only [Bool.or_eq_true, decide_eq_true_eq]
      omega
    have hs := @List.sorted_mergeSort Song
        (fun a b => decide (a.listenDate - b.listenDate ≤ 0)) htrans htotal store
    exact hs.imp (fun hab => by
      have := of_decide_eq_true hab
      omega)

/-- Witness for C5 at a concrete two-row store. -/
theorem C5_witness :
    ∃ out,
      exportHistoryAsFile (.ok [songA, songB]) =
        { message := "History exported", file := some out } ∧
      out.Perm [songA, songB] ∧
      List.Pairwise (fun a b => a.listenDate ≤ b.listenDate) out :=
  C5_export_sorted [songA, songB] (List.cons_ne_nil _ _)

/-- C9: the search filter keeps exactly the records whose title, album name,
or some artist name contains the query case-insensitively, and the empty
query keeps everything. -/
theorem C9_filter_characterization (songs : List Song) (rawQuery : String) :
    (∀ song, song ∈ handleSearchChange songs rawQuery ↔
        song ∈ songs ∧
          (ciSubstring rawQuery song.name ∨ ciSubstring rawQuery song.album.name ∨
            ∃ artist ∈ song.artists, ciSubstring rawQuery artist.name)) ∧
    handleSearchChange songs "" = songs := by
  constructor
  · intro song
    simp only [handleSearchChange, List.mem_filter, Bool.or_eq_true, List.any_eq_true,
      jsIncludes, decide_eq_true_eq, ciSubstring]
    tauto
  · unfold handleSearchChange
    rw [List.filter_eq_self]
    intro a _
    have hq : (jsToLower "").data = ([] : List Char) := by decide
    simp only [jsIncludes, String.toList, hq, Bool.or_eq_true, decide_eq_true_eq]
    exact Or.inl (Or.inl List.nil_infix)

/-- C2: every sequential run of upserts from the empty store yields a table
with no two rows sharing `uri` and no two rows sharing `uid`; moreover a
single upsert preserves that invariant from any state satisfying it. -/
theorem C2_uniqueness (ops : List Song) (store : List Song) (r : Song)
    (h : uniqueKeys store) :
    uniqueKeys (runUpserts [] ops) ∧ uniqueKeys (applyUpsert store r) :=
  ⟨runUpserts_uniqueKeys ops [] ⟨List.nodup_nil, List.nodup_nil⟩,
    applyUpsert_uniqueKeys store r h⟩

/-- Witness for C2 at a concrete operation sequence and store. -/
theorem C2_witness :
    uniqueKeys (runUpserts [] [songA, songB, songB2, songA]) ∧
    uniqueKeys (applyUpsert [songA] songB) :=
  C2_uniqueness [songA, songB, songB2, songA] [songA] songB ⟨by decide, by decide⟩

theorem find?_uri_of_mem {store : List Song} {found : Song} {u : String}
    (hnd : (store.map Song.uri).Nodup) (hmem : found ∈ store) (huri : found.uri = u) :
    store.find? (fun s => s.uri == u) = some found := by
  induction store with
  | nil => cases hmem
  | cons a rest ih =>
      rw [List.map_cons, List.nodup_cons] at hnd
      rcases List.mem_cons.mp hmem with rfl | hmemr
      · exact List.find?_cons_of_pos _ (by simp [huri])
      · have hau : ¬((fun s => s.uri == u) a = true) := by
          intro he
          have : a.uri ∈ rest.map Song.uri := by
            rw [eq_of_beq he, ← huri]
            exact List.mem_map_of_mem Song.uri hmemr
          exact hnd.1 this
        rw [@List.find?_cons_of_neg Song (fun s => s.uri == u) a rest hau]
        exact ih hnd.2 hmemr

theorem nodup_split_uid {pre post : List Song} {found : Song}
    (hnd : ((pre ++ found :: post).map Song.uid).Nodup) :
    (∀ x ∈ pre, x.uid ≠ found.uid) ∧ (∀ x ∈ post, x.uid ≠ found.uid) := by
  rw [List.map_append, List.map_cons, List.nodup_middle, List.nodup_cons] at hnd
  obtain ⟨hnotin, _⟩ := hnd
  rw [List.mem_append] at hnotin
  constructor
  · intro x hx he
    exact hnotin (Or.inl (he ▸ List.mem_map_of_mem Song.uid hx))
  · intro x hx he
    exact hnotin (Or.inr (he ▸ List.mem_map_of_mem Song.uid hx))

theorem map_update_middle (pre post : List Song) (found updated : Song)
    (hpre : ∀ x ∈ pre, x.uid ≠ found.uid) (hpost : ∀ x ∈ post, x.uid ≠ found.uid) :
    (pre ++ found :: post).map
        (fun s => if s.uid == found.uid then updated else s) =
      pre ++ updated :: post := by
  rw [List.map_append, List.map_cons]
  have h1 : pre.map (fun s => if s.uid == found.uid then updated else s) = pre := by
    conv_rhs => rw [← List.map_id pre]
    apply List.map_congr_left
    intro a ha
    simp [hpre a ha]
  have h2 : post.map (fun s => if s.uid == found.uid then updated else s) = post := by
    conv_rhs => rw [← List.map_id post]
    apply List.map_congr_left
    intro a ha
    simp [hpost a ha]
  rw [h1, h2]
  simp

/-- Counterexample to C1 as stated: the incoming record `songClash` carries a
`uri` present nowhere in the store, yet it is not inserted — its `uid`
collides with `songA`'s, so the `add` request fails with a `ConstraintError`
and the upsert rejects. -/
theorem C1_counterexample :
    songA.uri ≠ songClash.uri ∧
    saveSongToDB [songA] songClash = .error "ConstraintError" :=
  ⟨by decide, rfl⟩

/-- C1 (amended): on a store with unique keys, an upsert whose `uri` matches
stored row `found` replaces exactly that row by `found` with only
`listenDate` set to the incoming value, leaving every other row in place; a
record matching no stored `uri` **and no stored `uid`** is appended whole;
and upserting `r` then `r` with only the timestamp changed, from empty,
yields exactly one row with `r`'s fields and the second timestamp. -/
theorem C1_upsert_amended (store : List Song) (r : Song) :
    (∀ found, uniqueKeys store → found ∈ store → found.uri = r.uri →
      ∃ pre post, store = pre ++ found :: post ∧
        saveSongToDB store r =
          .ok (pre ++ { found with listenDate := r.listenDate } :: post)) ∧
    ((∀ s ∈ store, s.uri ≠ r.uri) → (∀ s ∈ store, s.uid ≠ r.uid) →
      saveSongToDB store r = .ok (store ++ [r])) ∧
    (saveSongToDB [] r = .ok [r] ∧
      ∀ t, saveSongToDB [r] { r with listenDate := t } =
        .ok [{ r with listenDate := t }]) := by
  refine ⟨?_, ?_, ?_, ?_⟩
  · intro found huk hmem huri
    obtain ⟨pre, post, hsplit⟩ := List.append_of_mem hmem
    refine ⟨pre, post, hsplit, ?_⟩
    rw [saveSongToDB_eq_found (find?_uri_of_mem huk.2 hmem huri)]
    subst hsplit
    obtain ⟨hpre, hpost⟩ := nodup_split_uid huk.1
    rw [map_update_middle pre post found _ hpre hpost]
  · intro h1 h2
    apply saveSongToDB_eq_add
    · rw [List.find?_eq_none]
      intro s hs
      simp [h1 s hs]
    · rw [List.any_eq_false]
      intro s hs
      simp [h2 s hs]
  · rfl
  · intro t
    have hfind : [r].find?
        (fun s => s.uri == ({ r with listenDate := t } : Song).uri) = some r :=
      List.find?_cons_of_pos _ (by simp)
    rw [saveSongToDB_eq_found hfind]
    simp

/-- Witness for C1 at concrete stores: a timestamp-only update of `songB`, a
fresh insert of `songC`, and the empty-store double-upsert scenario. -/
theorem C1_witness :
    (∃ pre post, ([songA, songB] : List Song) = pre ++ songB :: post ∧
      saveSongToDB [songA, songB] songB2 =
        .ok (pre ++ { songB with listenDate := songB2.listenDate } :: post)) ∧
    saveSongToDB [songA] songC = .ok ([songA] ++ [songC]) ∧
    saveSongToDB [] songA = .ok [songA] ∧
    saveSongToDB [songA] { songA with listenDate := 777 } =
      .ok [{ songA with listenDate := 777 }] := by
  have h := C1_upsert_amended [songA, songB] songB2
  have h2 := C1_upsert_amended [songA] songC
  have h3 := C1_upsert_amended [] songA
  refine ⟨?_, ?_, h3.2.2.1, (C1_upsert_amended [] songA).2.2.2 777⟩
  · exact h.1 songB ⟨by decide, by decide⟩
      (List.mem_cons_of_mem _ (List.mem_cons_self _ _)) rfl
  · exact h2.2.1
      (fun s hs => by
        have hsa : s = songA := by simpa using hs
        subst hsa
        decide)
      (fun s hs => by
        have hsa : s = songA := by simpa using hs
        subst hsa
        decide)

theorem importQueue_invalidHit {doc : List JValue}
    (h : ∃ v ∈ doc, isValidSong v = false) : (importQueue doc).2 = true := by
  induction doc with
  | nil => simp at h
  | cons a rest ih =>
      obtain ⟨v, hv, hinv⟩ := h
      unfold importQueue
      by_cases ha : isValidSong a = true
      · rw [if_pos ha]
        have hvrest : v ∈ rest := by
          rcases List.mem_cons.mp hv with rfl | hr
          · rw [ha] at hinv
            cases hinv
          · exact hr
        cases hts : toSong a with
        | some s => simpa using ih ⟨v, hvrest, hinv⟩
        | none => rfl
      · rw [if_neg ha]

theorem addAll_ok {queue : List Song} : ∀ {store st : List Song},
    addAll store queue = .ok st → st = store ++ queue := by
  induction queue with
  | nil =>
      intro store st h
      cases h
      simp
  | cons a rest ih =>
      intro store st h
      unfold addAll at h
      by_cases hc : store.any (fun t => t.uid == a.uid || t.uri == a.uri) = true
      · rw [if_pos hc] at h
        cases h
      · rw [if_neg hc] at h
        rw [ih h]
        simp

theorem addAll_conflict {queue : List Song} : ∀ {store : List Song} {s : Song},
    s ∈ queue → (∃ t ∈ store, (t.uid == s.uid || t.uri == s.uri) = true) →
    ∃ e, addAll store queue = .error e := by
  induction queue with
  | nil =>
      intro store s h _
      cases h
  | cons a rest ih =>
      intro store s hmem hconf
      unfold addAll
      by_cases hc : store.any (fun t => t.uid == a.uid || t.uri == a.uri) = true
      · rw [if_pos hc]
        exact ⟨_, rfl⟩
      · rw [if_neg hc]
        rcases List.mem_cons.mp hmem with rfl | hr
        · obtain ⟨t, ht, htc⟩ := hconf
          exact absurd (List.any_eq_true.mpr ⟨t, ht, htc⟩) hc
        · obtain ⟨t, ht, htc⟩ := hconf
          exact ih hr ⟨t, List.mem_append_left _ ht, htc⟩

/-- Counterexample to C3 as stated: a document whose second entry lacks
`durationMs` makes the import report failure, yet the valid first record is
still committed — the store does not stay unchanged. -/
theorem C3_counterexample :
    isValidSong jBadNoDuration = false ∧
    (importHistoryAsFile [] [jSongB, jBadNoDuration]).1 = .failed ∧
    (importHistoryAsFile [] [jSongB, jBadNoDuration]).2 ≠ [] := by
  refine ⟨rfl, rfl, ?_⟩
  intro h
  have he : (importHistoryAsFile [] [jSongB, jBadNoDuration]).2 = [songB] := rfl
  rw [he] at h
  exact List.cons_ne_nil _ _ h

/-- C3 (amended): an import document with an invalid element is reported as
failed, but the store is not necessarily unchanged: it either stays unchanged
(when a queued add conflicts and aborts the transaction) or gains exactly the
valid records queued before the first invalid element. -/
theorem C3_amended_partial_import (store : List Song) (doc : List JValue)
    (h : ∃ v ∈ doc, isValidSong v = false) :
    (importHistoryAsFile store doc).1 = .failed ∧
    ((importHistoryAsFile store doc).2 = store ∨
      (importHistoryAsFile store doc).2 = store ++ (importQueue doc).1) := by
  have hbad := importQueue_invalidHit h
  unfold importHistoryAsFile
  cases ha : addAll store (importQueue doc).1 with
  | error e => exact ⟨rfl, Or.inl rfl⟩
  | ok st =>
      rw [hbad]
      exact ⟨rfl, Or.inr (addAll_ok ha)⟩

/-- Witness for C3 (amended) at the concrete two-entry document. -/
theorem C3_witness :
    (importHistoryAsFile [] [jSongB, jBadNoDuration]).1 = .failed ∧
    ((importHistoryAsFile [] [jSongB, jBadNoDuration]).2 = [] ∨
      (importHistoryAsFile [] [jSongB, jBadNoDuration]).2 =
        [] ++ (importQueue [jSongB, jBadNoDuration]).1) :=
  C3_amended_partial_import [] [jSongB, jBadNoDuration]
    ⟨jBadNoDuration, List.mem_cons_of_mem _ (List.mem_cons_self _ _), rfl⟩

/-- Counterexample to C4 as stated: importing a document whose first entry
collides on `uri` with stored `songA` does not skip just that entry and
continue — the whole operation fails generically and the fresh second entry
is not committed either (the result store is exactly `[songA]`). -/
theorem C4_counterexample :
    isValidSong jConflict = true ∧
    isValidSong jFresh = true ∧
    (toSong jConflict).map Song.uri = some songA.uri ∧
    importHistoryAsFile [songA] [jConflict, jFresh] = (.failed, [songA]) :=
  ⟨rfl, rfl, rfl, rfl⟩

/-- C4 (amended): an imported record whose `uri` already exists in the store
makes its queued add fail, which aborts the whole import transaction: the
outcome is the generic failure and the store is left exactly unchanged (the
conflicting row is not merely skipped — nothing from the document lands). -/
theorem C4_amended_conflict_aborts (store : List Song) (doc : List JValue)
    (h : ∃ s ∈ (importQueue doc).1, ∃ t ∈ store, t.uri = s.uri) :
    importHistoryAsFile store doc = (.failed, store) := by
  obtain ⟨s, hs, t, ht, htu⟩ := h
  obtain ⟨e, he⟩ := addAll_conflict hs ⟨t, ht, by simp [htu]⟩
  unfold importHistoryAsFile
  rw [he]

/-- Witness for C4 (amended) at a concrete conflicting document. -/
theorem C4_witness :
    importHistoryAsFile [songA] [jConflict] = (.failed, [songA]) :=
  C4_amended_conflict_aborts [songA] [jConflict]
    ⟨{ uid := "uidE", uri := "spotify:track:A", name := "Bohemian Rhapsody",
       duration := ⟨300000⟩, album := ⟨"A Night at the Opera", "spotify:album:A"⟩,
       artists := [], metadata := [], images := [], listenDate := 600 },
      by
        rw [show (importQueue [jConflict]).1 =
          [{ uid := "uidE", uri := "spotify:track:A", name := "Bohemian Rhapsody",
             duration := ⟨300000⟩, album := ⟨"A Night at the Opera", "spotify:album:A"⟩,
             artists := [], metadata := [], images := [], listenDate := 600 }] from rfl]
        exact List.mem_singleton_self _,
      songA, List.mem_singleton_self _, rfl⟩

end SpicetifyHistory
